import Mathlib

/-!
Shallow embedding of the OAuth bearer-token verification subsystem of
parse-dmarc (package `internal/mcp/oauth`): configuration validation,
token-info predicates, the two verification strategies' post-processing,
the caching decorator, the bearer middleware and the protected-resource
metadata endpoint.  External effects (the OIDC library's cryptographic
check, the introspection HTTP round trip, provider discovery) enter as
oracle parameters; everything after them is translated from the Go source.
Go `time.Time` instants are modelled as `Int` nanoseconds since the epoch;
`time.Unix(sec, 0)` is `sec * nsPerSecond`.
-/

set_option autoImplicit false

namespace Oauth

/-- Config from `config.go`.  Field names follow the Go struct. -/
structure Config where
  Enabled : Bool
  Issuer : String
  Audience : String
  ClientID : String
  ClientSecret : String
  RequiredScopes : List String
  IntrospectionEndpoint : String
  ResourceServerURL : String
  ResourceName : String
  ResourceDocumentation : String
  SkipIssuerCheck : Bool
  InsecureSkipVerify : Bool
deriving Repr, DecidableEq

/-- TokenInfo from `config.go`.  The opaque `Extra` claim bag
(`map[string]interface{}`) is not modelled; no claim depends on it. -/
structure TokenInfo where
  Subject : String
  ClientID : String
  Scopes : List String
  Audience : List String
  ExpiresAt : Int
  IssuedAt : Int
  Issuer : String
deriving Repr, DecidableEq

/-- `TokenInfo.HasScope`: linear scan for an exactly equal scope string. -/
def TokenInfo.HasScope (t : TokenInfo) (scope : String) : Bool :=
  t.Scopes.any (fun s => s == scope)

/-- `TokenInfo.HasAllScopes`: every required scope is present. -/
def TokenInfo.HasAllScopes (t : TokenInfo) (scopes : List String) : Bool :=
  scopes.all (fun required => t.HasScope required)

/-- `strings.TrimSuffix(s, "/")`: drop one trailing slash if present. -/
def trimOneTrailingSlash (s : String) : String :=
  if s.endsWith "/" then s.dropRight 1 else s

/-- `TokenInfo.HasAudience`: membership after normalizing one trailing
slash on both sides. -/
def TokenInfo.HasAudience (t : TokenInfo) (audience : String) : Bool :=
  t.Audience.any (fun aud => trimOneTrailingSlash aud == trimOneTrailingSlash audience)

/-- The list of messages `Config.Validate` accumulates in `errs`, in source
order.  `urlOk` stands for `url.Parse` succeeding (the Go code only consults
it on non-empty strings). -/
def validateErrs (urlOk : String → Bool) (c : Config) : List String :=
  (if c.Issuer = "" then ["issuer is required when OAuth is enabled"]
   else if !urlOk c.Issuer then ["issuer must be a valid URL"] else [])
  ++ (if c.Audience = "" then ["audience is required when OAuth is enabled"] else [])
  ++ (if c.ResourceServerURL = "" then ["resource_server_url is required when OAuth is enabled"]
      else if !urlOk c.ResourceServerURL then ["resource_server_url must be a valid URL"] else [])
  ++ (if c.IntrospectionEndpoint ≠ "" then
        (if c.ClientID = "" ∨ c.ClientSecret = "" then
          ["client_id and client_secret are required when using introspection"] else [])
        ++ (if !urlOk c.IntrospectionEndpoint then
              ["introspection_endpoint must be a valid URL"] else [])
      else [])

/-- `Config.Validate`: `nil` when disabled; otherwise the accumulated rule
violations joined into one combined error, or `nil` when none. -/
def Config.Validate (urlOk : String → Bool) (c : Config) : Option String :=
  if !c.Enabled then none
  else
    let errs := validateErrs urlOk c
    if errs.length > 0 then
      some ("oauth config validation failed: " ++ String.intercalate "; " errs)
    else none

/-- `unicode.IsSpace`, the predicate Go's `strings.TrimSpace` trims by:
the full Unicode White_Space property — TAB through CR, space, NEL, NBSP,
Ogham space mark, the U+2000–U+200A spaces, line and paragraph separator,
narrow no-break space, medium mathematical space and ideographic space. -/
def goIsSpace (c : Char) : Bool :=
  let n := c.toNat
  (0x09 ≤ n && n ≤ 0x0D) || n = 0x20 || n = 0x85 || n = 0xA0 ||
    n = 0x1680 || (0x2000 ≤ n && n ≤ 0x200A) || n = 0x2028 || n = 0x2029 ||
    n = 0x202F || n = 0x205F || n = 0x3000

/-- `strings.HasPrefix` over character lists. -/
def listStartsWith : List Char → List Char → Bool
  | _, [] => true
  | [], _ :: _ => false
  | c :: cs, p :: ps => c = p && listStartsWith cs ps

/-- `strings.TrimSpace` over character lists: drop whitespace from both
ends. -/
def goTrimSpace (l : List Char) : List Char :=
  ((l.dropWhile goIsSpace).reverse.dropWhile goIsSpace).reverse

/-- `extractBearerToken` from the middleware source: absent header is the
empty token with no error; a header not starting with the literal
`Bearer ` scheme is a request-format error; the remainder is trimmed and,
when empty, reported as an error. -/
def extractBearerToken (authHeader : Option String) : Except String String :=
  match authHeader with
  | none => .ok ""
  | some h =>
    let hl := h.toList
    let schemePat := "Bearer ".toList
    if listStartsWith hl schemePat then
      let token := String.mk (goTrimSpace (hl.drop schemePat.length))
      if token = "" then .error "bearer token is empty" else .ok token
    else .error "authorization header must use Bearer scheme"

/-- `MetadataPath` constant. -/
def MetadataPath : String := "/.well-known/oauth-protected-resource"

/-- The part of an inbound HTTP request the middleware reads. -/
structure Request where
  path : String
  authorization : Option String
deriving Repr, DecidableEq

/-- The JSON body written by `BearerAuthMiddleware.unauthorized`. -/
def unauthorizedBody (errorCode description : String) : String :=
  "\x7b\"error\":\"" ++ errorCode ++ "\",\"error_description\":\"" ++ description ++ "\"\x7d"

/-- What `BearerAuthMiddleware.Wrap` does with one request: forward the
metadata path untouched, deny with a status/code/description/body, or run
the protected handler with the `TokenInfo` stored in the request context. -/
inductive Outcome where
  | bypass
  | denied (status : Nat) (errorCode : String) (description : String) (body : String)
  | handled (info : TokenInfo)
deriving Repr, DecidableEq

/-- `BearerAuthMiddleware.Wrap`, with the configured verifier as oracle
`verify`.  Mirrors the Go branch order: metadata bypass, extraction error,
empty token, verification error, success. -/
def BearerAuthMiddleware.Wrap (verify : String → Except String TokenInfo)
    (req : Request) : Outcome :=
  if req.path = MetadataPath then .bypass
  else
    match extractBearerToken req.authorization with
    | .error e => .denied 401 "invalid_request" e (unauthorizedBody "invalid_request" e)
    | .ok token =>
      if token = "" then
        .denied 401 "invalid_request" "Bearer token required"
          (unauthorizedBody "invalid_request" "Bearer token required")
      else
        match verify token with
        | .error _ =>
          .denied 401 "invalid_token" "Token verification failed"
            (unauthorizedBody "invalid_token" "Token verification failed")
        | .ok info => .handled info

/-- A JSON-decoded claim value, as far as the audience switch inspects it:
Go's `interface{}` after `encoding/json`, restricted to the shapes the
`switch` statements distinguish (`string`, `[]interface{}`, anything else). -/
inductive JsonVal where
  | str (s : String)
  | arr (elems : List JsonVal)
  | num (n : Int)
  | boolean (b : Bool)
  | null
deriving Repr

/-- The OIDC audience switch: a string becomes a singleton, an array keeps
its string elements (silently dropping others), and any other shape — with
no `default` case — leaves the audience nil. -/
def parseAudienceOIDC (aud : JsonVal) : List String :=
  match aud with
  | .str s => [s]
  | .arr es => es.filterMap (fun e => match e with | .str s => some s | _ => none)
  | _ => []

/-- The introspection audience switch: identical on string/array, but its
`default` case makes any other shape a verification error. -/
def parseAudienceIntrospection (aud : JsonVal) : Except String (List String) :=
  match aud with
  | .str s => .ok [s]
  | .arr es => .ok (es.filterMap (fun e => match e with | .str s => some s | _ => none))
  | _ => .error "unexpected type for audience claim"

/-- `strings.Split(scope, " ")` guarded by the empty check both verifiers
perform. -/
def parseScopeString (scope : String) : List String :=
  if scope = "" then [] else scope.splitOn " "

/-- The claims `OIDCVerifier.Verify` decodes from the already
cryptographically verified token, plus `idToken.Issuer`. -/
structure OIDCClaims where
  Subject : String
  Audience : JsonVal
  ClientID : String
  Scope : String
  IssuedAt : Int
  ExpiresAt : Int
  Issuer : String
deriving Repr

/-- The fields of the RFC 7662 `introspectionResponse` that
`IntrospectionVerifier.Verify` consumes. -/
structure IntrospectionResponse where
  Active : Bool
  Scope : String
  ClientID : String
  ExpiresAt : Int
  IssuedAt : Int
  Subject : String
  Audience : JsonVal
  Issuer : String
deriving Repr

/-- `OIDCVerifier.Verify` after the library step: parse audience and
scopes, assemble the `TokenInfo`, then the configured-audience and
required-scopes post-checks. -/
def OIDCVerifier.postVerify (cfg : Config) (c : OIDCClaims) : Except String TokenInfo :=
  let audience := parseAudienceOIDC c.Audience
  let scopes := parseScopeString c.Scope
  let info : TokenInfo :=
    ⟨c.Subject, c.ClientID, scopes, audience, c.ExpiresAt, c.IssuedAt, c.Issuer⟩
  if cfg.Audience ≠ "" ∧ info.HasAudience cfg.Audience = false then
    .error "token audience does not match expected audience"
  else if cfg.RequiredScopes.length > 0 ∧ info.HasAllScopes cfg.RequiredScopes = false then
    .error "token missing required scopes"
  else .ok info

/-- `IntrospectionVerifier.Verify` after a 200 response is decoded:
`active` gate, audience normalization (erroring on unexpected shapes),
scope parse, assembly, and the same two post-checks. -/
def IntrospectionVerifier.postVerify (cfg : Config) (ir : IntrospectionResponse) :
    Except String TokenInfo :=
  if ir.Active = false then .error "token is not active"
  else
    match parseAudienceIntrospection ir.Audience with
    | .error e => .error e
    | .ok audience =>
      let scopes := parseScopeString ir.Scope
      let info : TokenInfo :=
        ⟨ir.Subject, ir.ClientID, scopes, audience, ir.ExpiresAt, ir.IssuedAt, ir.Issuer⟩
      if cfg.Audience ≠ "" ∧ info.HasAudience cfg.Audience = false then
        .error "token audience does not match expected audience"
      else if cfg.RequiredScopes.length > 0 ∧ info.HasAllScopes cfg.RequiredScopes = false then
        .error "token missing required scopes"
      else .ok info

/-- Whether a JSON value has one of the two audience shapes both switches
accept. -/
def JsonVal.isStrOrArr : JsonVal → Bool
  | .str _ => true
  | .arr _ => true
  | _ => false

/-- Nanoseconds per second: `time.Unix(sec, 0)` lands on `sec *
nsPerSecond` in the `Int`-nanosecond model of `time.Time`. -/
def nsPerSecond : Int := 1000000000

/-- `time.Unix(sec, 0)` as an instant. -/
def unixToInstant (sec : Int) : Int := sec * nsPerSecond

/-- `cacheEntry`: a `TokenInfo` with its absolute expiry instant. -/
structure CacheEntry where
  info : TokenInfo
  expiresAt : Int
deriving Repr, DecidableEq

/-- The `sync.Map` keyed by raw token string, as an association list with
at most one binding per key. -/
abbrev Cache := List (String × CacheEntry)

/-- `sync.Map.Load`. -/
def cacheLoad : Cache → String → Option CacheEntry
  | [], _ => none
  | (k, e) :: rest, token => if k = token then some e else cacheLoad rest token

/-- `sync.Map.Delete`. -/
def cacheDelete : Cache → String → Cache
  | [], _ => []
  | (k, e) :: rest, token =>
    if k = token then cacheDelete rest token else (k, e) :: cacheDelete rest token

/-- `sync.Map.Store` (replace-on-write). -/
def cacheStore (c : Cache) (token : String) (e : CacheEntry) : Cache :=
  (token, e) :: cacheDelete c token

/-- The read phase of `CachingVerifier.Verify`: a hit before the stored
expiry returns the entry; an entry found at or past it is deleted. -/
def cacheReadPhase (now : Int) (cache : Cache) (token : String) :
    Option TokenInfo × Cache :=
  match cacheLoad cache token with
  | some ce =>
    if now < ce.expiresAt then (some ce.info, cache) else (none, cacheDelete cache token)
  | none => (none, cache)

/-- The result of one `CachingVerifier.Verify` call: what it returned, the
cache afterwards, and whether the wrapped verifier was invoked. -/
structure VerifyResult where
  result : Except String TokenInfo
  cache : Cache
  invokedWrapped : Bool
deriving Repr

/-- `CachingVerifier.Verify` with the wrapped verifier as oracle: cache
read (with lazy eviction), fall through to the wrapped verifier, and on
success store under expiry `min(now + ttl, token ExpiresAt when > 0)`. -/
def CachingVerifier.Verify (wrapped : String → Except String TokenInfo)
    (ttl : Int) (now : Int) (cache : Cache) (token : String) : VerifyResult :=
  match cacheReadPhase now cache token with
  | (some info, c) => ⟨.ok info, c, false⟩
  | (none, c) =>
    match wrapped token with
    | .error e => ⟨.error e, c, true⟩
    | .ok info =>
      let expiresAt := now + ttl
      let expiresAt :=
        if info.ExpiresAt > 0 ∧ unixToInstant info.ExpiresAt < expiresAt then
          unixToInstant info.ExpiresAt
        else expiresAt
      ⟨.ok info, cacheStore c token ⟨info, expiresAt⟩, true⟩

/-- Five minutes in nanoseconds, the default cache TTL. -/
def fiveMinutes : Int := 5 * 60 * nsPerSecond

/-- The TTL normalization in `NewCachingVerifier`: zero or negative
becomes the five-minute default. -/
def NewCachingVerifier.normalizeTTL (ttl : Int) : Int :=
  if ttl ≤ 0 then fiveMinutes else ttl

/-- Which concrete strategy `NewVerifier` constructs. -/
inductive StrategyKind where
  | oidc
  | introspection
deriving Repr, DecidableEq

/-- The shape of the verifier `NewVerifier` returns: always a
`CachingVerifier` (this structure) around one concrete strategy. -/
structure CachingVerifierDesc where
  strategy : StrategyKind
  ttl : Int
deriving Repr, DecidableEq

/-- `NewVerifier`: introspection when `IntrospectionEndpoint` is set,
otherwise OIDC, always wrapped by `NewCachingVerifier` with a five-minute
TTL. -/
def NewVerifier (cfg : Config) : CachingVerifierDesc :=
  let strategy : StrategyKind :=
    if cfg.IntrospectionEndpoint ≠ "" then .introspection else .oidc
  ⟨strategy, NewCachingVerifier.normalizeTTL fiveMinutes⟩

/-- The `sync.Once`-guarded state of an `OIDCVerifier` instance:
whether `initOnce` has fired and the stored `initError`. -/
structure OIDCState where
  initDone : Bool
  initError : Option String
deriving Repr, DecidableEq

/-- A freshly constructed `OIDCVerifier` (`NewOIDCVerifier`). -/
def NewOIDCVerifier : OIDCState := ⟨false, none⟩

/-- The outcome of `OIDCVerifier.init`: the error returned, the state
afterwards, and whether provider discovery was attempted on this call. -/
structure InitResult where
  error : Option String
  state : OIDCState
  attempted : Bool
deriving Repr, DecidableEq

/-- `OIDCVerifier.init` with the discovery outcome as oracle `disc`
(`some e` = `oidc.NewProvider` failed with `e`): `sync.Once.Do` runs the
body only when it has never run, and the stored `initError` is returned
every time. -/
def OIDCVerifier.init (disc : Option String) (s : OIDCState) : InitResult :=
  if s.initDone then ⟨s.initError, s, false⟩
  else ⟨disc, ⟨true, disc⟩, true⟩

/-- `OIDCVerifier.Verify`: run `init`, propagate its stored error, and
otherwise defer to the library verification (oracle `verifyTok`). -/
def OIDCVerifier.Verify (disc : Option String)
    (verifyTok : Except String TokenInfo) (s : OIDCState) :
    Except String TokenInfo × OIDCState × Bool :=
  let r := OIDCVerifier.init disc s
  match r.error with
  | some e => (.error e, r.state, r.attempted)
  | none => (verifyTok, r.state, r.attempted)

/-- A sequence of `OIDCVerifier.Verify` calls, each with its own discovery
and library oracles, run through the evolving instance state; yields each
call's result and attempted flag. -/
def OIDCVerifier.runCalls (calls : List (Option String × Except String TokenInfo))
    (s : OIDCState) : List (Except String TokenInfo × Bool) × OIDCState :=
  match calls with
  | [] => ([], s)
  | (d, v) :: rest =>
    let (r, s1, a) := OIDCVerifier.Verify d v s
    let (rs, sFin) := OIDCVerifier.runCalls rest s1
    ((r, a) :: rs, sFin)

/-- The subset of RFC 9728 metadata fields `BuildMetadata` populates; the
remaining optional fields of the Go struct are never set by this code. -/
structure ProtectedResourceMetadata where
  resource : String
  authorizationServers : List String
  scopesSupported : List String
  bearerMethodsSupported : List String
  resourceName : String
  resourceDocumentation : String
deriving Repr, DecidableEq

/-- `BuildMetadata`: copy config fields, only `header` bearer transport,
and default `scopes_supported` to `["mcp:tools"]` when none configured. -/
def BuildMetadata (cfg : Config) : ProtectedResourceMetadata :=
  let scopes := cfg.RequiredScopes
  { resource := cfg.ResourceServerURL
    authorizationServers := [cfg.Issuer]
    scopesSupported := if scopes.length = 0 then ["mcp:tools"] else scopes
    bearerMethodsSupported := ["header"]
    resourceName := cfg.ResourceName
    resourceDocumentation := cfg.ResourceDocumentation }

/-- The metadata endpoint's response: either 200 with caching headers and
the JSON document, or 405 with an `Allow` header. -/
inductive MetadataResponse where
  | ok (status : Nat) (cacheControl : String) (contentType : String)
      (body : ProtectedResourceMetadata)
  | methodNotAllowed (status : Nat) (allow : String)
deriving Repr, DecidableEq

/-- `MetadataHandler`: only GET is accepted; the handler consults nothing
but the request method and the config, so authentication state cannot
influence it. -/
def MetadataHandler (cfg : Config) (method : String) : MetadataResponse :=
  if method ≠ "GET" then .methodNotAllowed 405 "GET"
  else .ok 200 "public, max-age=3600" "application/json" (BuildMetadata cfg)

/-- A sample verified identity used to exercise the theorems. -/
def tokenA : TokenInfo :=
  ⟨"alice", "cli", ["mcp:tools"], ["https://rs"], 0, 0, "https://issuer"⟩

/-- A sample identity whose token carries its own expiry (Unix second 100). -/
def tokenB : TokenInfo := { tokenA with ExpiresAt := 100 }

/-- A cache holding one entry for token `"t"` that expires at instant 5. -/
def expiredCache : Cache := [("t", ⟨tokenA, 5⟩)]

/-- A config with every field zeroed, the base for concrete instances. -/
def emptyConfig : Config := ⟨false, "", "", "", "", [], "", "", "", "", false, false⟩

/-- An enabled config with all required fields missing. -/
def cfgEnabledEmpty : Config := { emptyConfig with Enabled := true }

/-- A config that selects the introspection strategy. -/
def cfgIntro : Config := { emptyConfig with IntrospectionEndpoint := "https://as/introspect" }

/-- A wrapped verifier that accepts every token as `tokenB`. -/
def wrappedOkB : String → Except String TokenInfo := fun _ => .ok tokenB

/-- A wrapped verifier that rejects every token. -/
def wrappedErr : String → Except String TokenInfo := fun _ => .error "boom"

deriving instance DecidableEq for Except

theorem cacheLoad_cacheStore_self (c : Cache) (t : String) (e : CacheEntry) :
    cacheLoad (cacheStore c t e) t = some e := by
  simp [cacheStore, cacheLoad]

theorem cacheLoad_cacheDelete_self (c : Cache) (t : String) :
    cacheLoad (cacheDelete c t) t = none := by
  induction c with
  | nil => rfl
  | cons p rest ih =>
    obtain ⟨k, e⟩ := p
    by_cases h : k = t
    · simp [cacheDelete, h, ih]
    · simp [cacheDelete, cacheLoad, h, ih]

theorem cacheReadPhase_miss_load (now : Int) (cache : Cache) (token : String)
    (h : (cacheReadPhase now cache token).1 = none) :
    cacheLoad (cacheReadPhase now cache token).2 token = none := by
  unfold cacheReadPhase at *
  cases hl : cacheLoad cache token with
  | none => simp [hl]
  | some ce =>
    simp only [hl] at h ⊢
    by_cases hlt : now < ce.expiresAt
    · simp [hlt] at h
    · simp [hlt, cacheLoad_cacheDelete_self]

/-- C7: a disabled config always validates; an enabled config aggregates
every violated rule into one combined error message, so missing `Issuer`,
`Audience` and `ResourceServerURL` are each named in the single error, and
a set `IntrospectionEndpoint` with a missing client credential adds the
credentials rule to the same error. -/
theorem Config_Validate_spec (urlOk : String → Bool) (c : Config) :
    (c.Enabled = false → Config.Validate urlOk c = none) ∧
    (c.Enabled = true → (validateErrs urlOk c).length > 0 →
      Config.Validate urlOk c =
        some ("oauth config validation failed: " ++
          String.intercalate "; " (validateErrs urlOk c))) ∧
    (c.Issuer = "" → "issuer is required when OAuth is enabled" ∈ validateErrs urlOk c) ∧
    (c.Audience = "" → "audience is required when OAuth is enabled" ∈ validateErrs urlOk c) ∧
    (c.ResourceServerURL = "" →
      "resource_server_url is required when OAuth is enabled" ∈ validateErrs urlOk c) ∧
    (c.IntrospectionEndpoint ≠ "" → (c.ClientID = "" ∨ c.ClientSecret = "") →
      "client_id and client_secret are required when using introspection" ∈
        validateErrs urlOk c) := by
  refine ⟨?_, ?_, ?_, ?_, ?_, ?_⟩
  · intro h; simp [Config.Validate, h]
  · intro h1 h2
    simp only [Config.Validate, h1, Bool.not_true, Bool.false_eq_true, if_false]
    rw [if_pos h2]
  · intro h; simp [validateErrs, h]
  · intro h; simp [validateErrs, h]
  · intro h; simp [validateErrs, h]
  · intro h1 h2; simp [validateErrs, h1, h2]

/-- Witness for C7 at a concrete enabled config missing issuer, audience
and resource-server URL. -/
theorem Config_Validate_spec_witness :
    cfgEnabledEmpty.Enabled = true ∧
    (validateErrs (fun _ => true) cfgEnabledEmpty).length > 0 ∧
    Config.Validate (fun _ => true) cfgEnabledEmpty =
      some ("oauth config validation failed: " ++
        String.intercalate "; " (validateErrs (fun _ => true) cfgEnabledEmpty)) :=
  ⟨rfl, by decide,
    (Config_Validate_spec (fun _ => true) cfgEnabledEmpty).2.1 rfl (by decide)⟩

/-- C6 counterexample: a header whose remainder after `Bearer ` is all
whitespace is an extraction *error* ("bearer token is empty"), not the
empty token without error that the claim describes. -/
theorem extractBearerToken_whitespace_counterexample :
    extractBearerToken (some "Bearer   ") = .error "bearer token is empty" ∧
    extractBearerToken (some "Bearer   ") ≠ .ok "" := by
  exact ⟨rfl, by decide⟩

/-- C6 (amended): absent header yields the empty token with no error; a
header without the literal case-sensitive `Bearer ` scheme fails with a
request-format error; and an all-whitespace remainder fails with the
"bearer token is empty" error (rather than being returned as an empty
token), the trimmed remainder being returned otherwise. -/
theorem extractBearerToken_spec (h : String) :
    (extractBearerToken none = .ok "") ∧
    (listStartsWith h.toList "Bearer ".toList = false →
      extractBearerToken (some h) = .error "authorization header must use Bearer scheme") ∧
    (listStartsWith h.toList "Bearer ".toList = true →
      String.mk (goTrimSpace (h.toList.drop "Bearer ".toList.length)) = "" →
      extractBearerToken (some h) = .error "bearer token is empty") ∧
    (listStartsWith h.toList "Bearer ".toList = true →
      String.mk (goTrimSpace (h.toList.drop "Bearer ".toList.length)) ≠ "" →
      extractBearerToken (some h) =
        .ok (String.mk (goTrimSpace (h.toList.drop "Bearer ".toList.length)))) := by
  refine ⟨rfl, ?_, ?_, ?_⟩
  · intro hs; simp at hs; simp [extractBearerToken, hs]
  · intro hs ht; simp at hs ht; simp [extractBearerToken, hs, ht]
  · intro hs ht; simp at hs ht; simp [extractBearerToken, hs, ht]

/-- Witness for C6's amended statement on concrete headers. -/
theorem extractBearerToken_spec_witness :
    (listStartsWith "Token xyz".toList "Bearer ".toList = false) ∧
    extractBearerToken (some "Token xyz") =
      .error "authorization header must use Bearer scheme" ∧
    (listStartsWith "Bearer abc".toList "Bearer ".toList = true) ∧
    (String.mk (goTrimSpace ("Bearer abc".toList.drop "Bearer ".toList.length)) ≠ "") ∧
    extractBearerToken (some "Bearer abc") = .ok "abc" :=
  ⟨by decide, (extractBearerToken_spec "Token xyz").2.1 (by decide), by decide, by decide,
    (extractBearerToken_spec "Bearer abc").2.2.2 (by decide) (by decide)⟩

/-- C9: GET on the metadata endpoint is 200 JSON, cacheable for an hour,
with `bearer_methods_supported = ["header"]` and `scopes_supported` the
configured required scopes (or the `mcp:tools` default); any other method
is 405 with `Allow: GET`; the handler reads nothing but the method and the
config, so the result is independent of authentication state. -/
theorem MetadataHandler_spec (cfg : Config) (method : String) :
    (MetadataHandler cfg "GET" =
      .ok 200 "public, max-age=3600" "application/json" (BuildMetadata cfg)) ∧
    ((BuildMetadata cfg).bearerMethodsSupported = ["header"]) ∧
    ((BuildMetadata cfg).scopesSupported =
      if cfg.RequiredScopes.length = 0 then ["mcp:tools"] else cfg.RequiredScopes) ∧
    (method ≠ "GET" → MetadataHandler cfg method = .methodNotAllowed 405 "GET") := by
  refine ⟨rfl, rfl, rfl, ?_⟩
  intro h; simp [MetadataHandler, h]

/-- Witness for C9 at a concrete config and the POST method. -/
theorem MetadataHandler_spec_witness :
    ("POST" ≠ "GET") ∧
    MetadataHandler emptyConfig "POST" = .methodNotAllowed 405 "GET" ∧
    MetadataHandler emptyConfig "GET" =
      .ok 200 "public, max-age=3600" "application/json" (BuildMetadata emptyConfig) :=
  ⟨by decide, (MetadataHandler_spec emptyConfig "POST").2.2.2 (by decide),
    (MetadataHandler_spec emptyConfig "POST").1⟩

/-- C10: `NewVerifier` always returns the caching wrapper with the
five-minute TTL, and the wrapped strategy is introspection exactly when
`IntrospectionEndpoint` is non-empty. -/
theorem NewVerifier_spec (cfg : Config) :
    (NewVerifier cfg).ttl = fiveMinutes ∧
    ((NewVerifier cfg).strategy = StrategyKind.introspection ↔
      cfg.IntrospectionEndpoint ≠ "") := by
  constructor
  · simp [NewVerifier, NewCachingVerifier.normalizeTTL, fiveMinutes, nsPerSecond]
  · by_cases h : cfg.IntrospectionEndpoint = "" <;> simp [NewVerifier, h]

/-- Witness for C10 at configs with and without an introspection endpoint. -/
theorem NewVerifier_spec_witness :
    (NewVerifier emptyConfig).ttl = fiveMinutes ∧
    (cfgIntro.IntrospectionEndpoint ≠ "") ∧
    (NewVerifier cfgIntro).strategy = StrategyKind.introspection :=
  ⟨(NewVerifier_spec emptyConfig).1, by decide,
    (NewVerifier_spec cfgIntro).2.mpr (by decide)⟩

/-- C5: away from the metadata path, every denial the middleware writes is
status 401 with the JSON error body (never 403); an extraction error or an
empty extracted token denies with `invalid_request`, a verifier error with
`invalid_token`, and on verifier success the `TokenInfo` reaches the
protected handler — which never runs on a denial, since the outcome is a
denial and not a handler invocation. -/
theorem BearerAuthMiddleware_Wrap_spec
    (verify : String → Except String TokenInfo) (req : Request)
    (hpath : req.path ≠ MetadataPath) :
    (∀ s c d b, BearerAuthMiddleware.Wrap verify req = .denied s c d b →
      s = 401 ∧ b = unauthorizedBody c d ∧ (c = "invalid_request" ∨ c = "invalid_token")) ∧
    (∀ e, extractBearerToken req.authorization = .error e →
      BearerAuthMiddleware.Wrap verify req =
        .denied 401 "invalid_request" e (unauthorizedBody "invalid_request" e)) ∧
    (extractBearerToken req.authorization = .ok "" →
      BearerAuthMiddleware.Wrap verify req =
        .denied 401 "invalid_request" "Bearer token required"
          (unauthorizedBody "invalid_request" "Bearer token required")) ∧
    (∀ tok e, extractBearerToken req.authorization = .ok tok → tok ≠ "" →
      verify tok = .error e →
      BearerAuthMiddleware.Wrap verify req =
        .denied 401 "invalid_token" "Token verification failed"
          (unauthorizedBody "invalid_token" "Token verification failed")) ∧
    (∀ tok info, extractBearerToken req.authorization = .ok tok → tok ≠ "" →
      verify tok = .ok info →
      BearerAuthMiddleware.Wrap verify req = .handled info) := by
  unfold BearerAuthMiddleware.Wrap
  rw [if_neg hpath]
  refine ⟨?_, ?_, ?_, ?_, ?_⟩
  · intro s c d b hw
    cases hx : extractBearerToken req.authorization with
    | error e =>
      rw [hx] at hw
      simp only [Outcome.denied.injEq] at hw
      obtain ⟨h1, h2, h3, h4⟩ := hw
      subst h1; subst h2; subst h3; subst h4
      exact ⟨rfl, rfl, Or.inl rfl⟩
    | ok token =>
      rw [hx] at hw
      dsimp only at hw
      by_cases htok : token = ""
      · rw [if_pos htok] at hw
        simp only [Outcome.denied.injEq] at hw
        obtain ⟨h1, h2, h3, h4⟩ := hw
        subst h1; subst h2; subst h3; subst h4
        exact ⟨rfl, rfl, Or.inl rfl⟩
      · rw [if_neg htok] at hw
        cases hv : verify token with
        | error e2 =>
          rw [hv] at hw
          simp only [Outcome.denied.injEq] at hw
          obtain ⟨h1, h2, h3, h4⟩ := hw
          subst h1; subst h2; subst h3; subst h4
          exact ⟨rfl, rfl, Or.inr rfl⟩
        | ok info =>
          rw [hv] at hw
          simp at hw
  · intro e hx; rw [hx]
  · intro hx; rw [hx]; exact rfl
  · intro tok e hx hne hv
    rw [hx]; dsimp only; rw [if_neg hne, hv]
  · intro tok info hx hne hv
    rw [hx]; dsimp only; rw [if_neg hne, hv]

/-- Witness for C5: a request off the metadata path with no Authorization
header is denied 401 `invalid_request` with the JSON body. -/
theorem BearerAuthMiddleware_Wrap_spec_witness :
    (("/x" : String) ≠ MetadataPath) ∧
    extractBearerToken (none : Option String) = .ok "" ∧
    BearerAuthMiddleware.Wrap wrappedErr ⟨"/x", none⟩ =
      .denied 401 "invalid_request" "Bearer token required"
        (unauthorizedBody "invalid_request" "Bearer token required") :=
  ⟨by decide, rfl,
    (BearerAuthMiddleware_Wrap_spec wrappedErr ⟨"/x", none⟩ (by decide)).2.2.1 rfl⟩

/-- C1: on a successful verification the stored entry's expiry is
`min(now + TTL, unixToInstant ExpiresAt)` when the token carries its own
expiry (and `now + TTL` otherwise), that instant never exceeds the token's
own expiry; and an entry found at or past its stored expiry is never
served: the read phase yields no hit, evicts the entry, and the wrapped
verifier is invoked instead, its answer becoming the call's result. -/
theorem CachingVerifier_entry_expiry_spec
    (wrapped : String → Except String TokenInfo) (ttl now : Int)
    (cache : Cache) (token : String) :
    (∀ info, wrapped token = .ok info → cacheLoad cache token = none →
      cacheLoad (CachingVerifier.Verify wrapped ttl now cache token).cache token =
        some ⟨info,
          if info.ExpiresAt > 0 then min (now + ttl) (unixToInstant info.ExpiresAt)
          else now + ttl⟩ ∧
      (info.ExpiresAt > 0 →
        (if info.ExpiresAt > 0 then min (now + ttl) (unixToInstant info.ExpiresAt)
         else now + ttl) ≤ unixToInstant info.ExpiresAt)) ∧
    (∀ ce, cacheLoad cache token = some ce → ce.expiresAt ≤ now →
      (cacheReadPhase now cache token).1 = none ∧
      cacheLoad (cacheReadPhase now cache token).2 token = none ∧
      (CachingVerifier.Verify wrapped ttl now cache token).invokedWrapped = true ∧
      (CachingVerifier.Verify wrapped ttl now cache token).result = wrapped token) := by
  constructor
  · intro info hw hmiss
    have hread : cacheReadPhase now cache token = (none, cache) := by
      simp [cacheReadPhase, hmiss]
    have hexpire :
        (if info.ExpiresAt > 0 ∧ unixToInstant info.ExpiresAt < now + ttl then
          unixToInstant info.ExpiresAt else now + ttl) =
        (if info.ExpiresAt > 0 then min (now + ttl) (unixToInstant info.ExpiresAt)
         else now + ttl) := by
      by_cases hpos : info.ExpiresAt > 0
      · by_cases hlt : unixToInstant info.ExpiresAt < now + ttl
        · simp [hpos, hlt, min_eq_right (le_of_lt hlt)]
        · push_neg at hlt
          simp [hpos, not_lt.mpr hlt, min_eq_left hlt]
      · simp [hpos]
    constructor
    · simp only [CachingVerifier.Verify, hread, hw, cacheLoad_cacheStore_self, hexpire]
    · intro hpos
      simp only [if_pos hpos]
      exact min_le_right _ _
  · intro ce hload hle
    have hnl : ¬ now < ce.expiresAt := not_lt.mpr hle
    have hread : cacheReadPhase now cache token = (none, cacheDelete cache token) := by
      simp [cacheReadPhase, hload, hnl]
    refine ⟨by rw [hread], ?_, ?_, ?_⟩
    · rw [hread]; exact cacheLoad_cacheDelete_self _ _
    · cases hw : wrapped token <;> simp [CachingVerifier.Verify, hread, hw]
    · cases hw : wrapped token <;> simp [CachingVerifier.Verify, hread, hw]

/-- Witness for C1: verifying a fresh token whose own expiry (Unix second
100) exceeds `now + ttl` stores the entry at `now + ttl`. -/
theorem CachingVerifier_entry_expiry_spec_witness :
    wrappedOkB "t" = .ok tokenB ∧ cacheLoad ([] : Cache) "t" = none ∧
    cacheLoad (CachingVerifier.Verify wrappedOkB 7 3 [] "t").cache "t" =
      some ⟨tokenB,
        if tokenB.ExpiresAt > 0 then min (3 + 7) (unixToInstant tokenB.ExpiresAt)
        else 3 + 7⟩ :=
  ⟨rfl, rfl, ((CachingVerifier_entry_expiry_spec wrappedOkB 7 3 [] "t").1 tokenB rfl rfl).1⟩

/-- C4: two successive calls within the TTL window and before the token's
own expiry invoke the wrapped verifier at most once — the first call
invokes and stores, the second answers from the cache without invoking. -/
theorem CachingVerifier_memoization
    (wrapped : String → Except String TokenInfo) (ttl t0 t1 : Int)
    (cache : Cache) (token : String) (info : TokenInfo)
    (hw : wrapped token = .ok info)
    (hmiss : cacheLoad cache token = none)
    (h01 : t0 ≤ t1) (httl : t1 < t0 + ttl)
    (hexp : info.ExpiresAt > 0 → t1 < unixToInstant info.ExpiresAt) :
    (CachingVerifier.Verify wrapped ttl t0 cache token).result = .ok info ∧
    (CachingVerifier.Verify wrapped ttl t0 cache token).invokedWrapped = true ∧
    (CachingVerifier.Verify wrapped ttl t1
        (CachingVerifier.Verify wrapped ttl t0 cache token).cache token).result = .ok info ∧
    (CachingVerifier.Verify wrapped ttl t1
        (CachingVerifier.Verify wrapped ttl t0 cache token).cache token).invokedWrapped
      = false := by
  have hread : cacheReadPhase t0 cache token = (none, cache) := by
    simp [cacheReadPhase, hmiss]
  set E := (if info.ExpiresAt > 0 ∧ unixToInstant info.ExpiresAt < t0 + ttl then
      unixToInstant info.ExpiresAt else t0 + ttl) with hE
  have h1 : CachingVerifier.Verify wrapped ttl t0 cache token =
      ⟨.ok info, cacheStore cache token ⟨info, E⟩, true⟩ := by
    simp only [CachingVerifier.Verify, hread, hw, hE]
  have hlt : t1 < E := by
    rw [hE]
    by_cases hc : info.ExpiresAt > 0 ∧ unixToInstant info.ExpiresAt < t0 + ttl
    · rw [if_pos hc]; exact hexp hc.1
    · rw [if_neg hc]; exact httl
  have h2 : CachingVerifier.Verify wrapped ttl t1
      (cacheStore cache token ⟨info, E⟩) token =
      ⟨.ok info, cacheStore cache token ⟨info, E⟩, false⟩ := by
    have hr : cacheReadPhase t1 (cacheStore cache token ⟨info, E⟩) token =
        (some info, cacheStore cache token ⟨info, E⟩) := by
      simp [cacheReadPhase, cacheLoad_cacheStore_self, hlt]
    simp only [CachingVerifier.Verify, hr]
  refine ⟨by rw [h1], by rw [h1], ?_, ?_⟩
  · rw [h1]; dsimp only; rw [h2]
  · rw [h1]; dsimp only; rw [h2]

/-- Witness for C4 with a fresh cache, `ttl = 7`, calls at instants 3 and
5, and a token expiring at Unix second 100. -/
theorem CachingVerifier_memoization_witness :
    wrappedOkB "t" = .ok tokenB ∧ cacheLoad ([] : Cache) "t" = none ∧
    ((3 : Int) ≤ 5) ∧ ((5 : Int) < 3 + 7) ∧
    (CachingVerifier.Verify wrappedOkB 7 5
        (CachingVerifier.Verify wrappedOkB 7 3 [] "t").cache "t").result = .ok tokenB ∧
    (CachingVerifier.Verify wrappedOkB 7 5
        (CachingVerifier.Verify wrappedOkB 7 3 [] "t").cache "t").invokedWrapped = false :=
  ⟨rfl, rfl, by decide, by decide,
    (CachingVerifier_memoization wrappedOkB 7 3 5 [] "t" tokenB rfl rfl (by decide) (by decide)
      (fun _ => by decide)).2.2.1,
    (CachingVerifier_memoization wrappedOkB 7 3 5 [] "t" tokenB rfl rfl (by decide) (by decide)
      (fun _ => by decide)).2.2.2⟩

/-- C3 counterexample: when the cache holds an already-expired entry for
the token and the wrapped verifier fails, the call returns the error but
the cache *changes* — the expired entry has been evicted — refuting
"cache state unchanged on error" read literally. -/
theorem CachingVerifier_error_cache_changed_counterexample :
    (CachingVerifier.Verify wrappedErr fiveMinutes 10 expiredCache "t").result
      = .error "boom" ∧
    (CachingVerifier.Verify wrappedErr fiveMinutes 10 expiredCache "t").cache
      ≠ expiredCache := by
  exact ⟨rfl, by decide⟩

/-- C3 (amended): when the wrapped verifier fails, the call returns that
error, nothing is stored for the token (the only possible cache change is
the eviction of an already-expired entry; with no prior entry the cache is
unchanged), and a subsequent call with the identical token invokes the
wrapped verifier again — no negative caching. -/
theorem CachingVerifier_no_negative_caching
    (wrapped : String → Except String TokenInfo) (ttl now now2 : Int)
    (cache : Cache) (token e : String)
    (hw : wrapped token = .error e)
    (hmiss : (cacheReadPhase now cache token).1 = none) :
    (CachingVerifier.Verify wrapped ttl now cache token).result = .error e ∧
    (CachingVerifier.Verify wrapped ttl now cache token).invokedWrapped = true ∧
    cacheLoad (CachingVerifier.Verify wrapped ttl now cache token).cache token = none ∧
    (cacheLoad cache token = none →
      (CachingVerifier.Verify wrapped ttl now cache token).cache = cache) ∧
    (CachingVerifier.Verify wrapped ttl now2
        (CachingVerifier.Verify wrapped ttl now cache token).cache token).invokedWrapped
      = true ∧
    (CachingVerifier.Verify wrapped ttl now2
        (CachingVerifier.Verify wrapped ttl now cache token).cache token).result
      = .error e := by
  have hload2 := cacheReadPhase_miss_load now cache token hmiss
  rcases hpair : cacheReadPhase now cache token with ⟨a, c1⟩
  rw [hpair] at hmiss hload2
  simp only at hmiss hload2
  subst hmiss
  have h1 : CachingVerifier.Verify wrapped ttl now cache token = ⟨.error e, c1, true⟩ := by
    simp only [CachingVerifier.Verify, hpair, hw]
  have hread2 : cacheReadPhase now2 c1 token = (none, c1) := by
    simp [cacheReadPhase, hload2]
  have h2 : CachingVerifier.Verify wrapped ttl now2 c1 token = ⟨.error e, c1, true⟩ := by
    simp only [CachingVerifier.Verify, hread2, hw]
  refine ⟨by rw [h1], by rw [h1], by rw [h1]; exact hload2, ?_, by rw [h1, h2], by rw [h1, h2]⟩
  intro hnone
  have : cacheReadPhase now cache token = (none, cache) := by
    simp [cacheReadPhase, hnone]
  rw [hpair] at this
  rw [h1]
  exact (Prod.mk.injEq _ _ _ _ ▸ this).2

/-- Witness for C3's amended statement: a failing wrapped verifier on an
empty cache returns the error, leaves the cache empty and is invoked again
by the next call. -/
theorem CachingVerifier_no_negative_caching_witness :
    wrappedErr "t" = .error "boom" ∧
    (cacheReadPhase 3 ([] : Cache) "t").1 = none ∧
    (CachingVerifier.Verify wrappedErr 7 3 [] "t").result = .error "boom" ∧
    (CachingVerifier.Verify wrappedErr 7 5
        (CachingVerifier.Verify wrappedErr 7 3 [] "t").cache "t").invokedWrapped = true :=
  ⟨rfl, rfl,
    (CachingVerifier_no_negative_caching wrappedErr 7 3 5 [] "t" "boom" rfl rfl).1,
    (CachingVerifier_no_negative_caching wrappedErr 7 3 5 [] "t" "boom" rfl rfl).2.2.2.2.1⟩

/-- C8: the first `Verify` on a fresh `OIDCVerifier` attempts discovery
and latches the outcome; after a failed discovery, every later `Verify`
call — whatever its own discovery or library oracle would say — returns
the stored error and never re-attempts discovery. -/
theorem OIDCVerifier_discovery_once
    (disc : Option String) (e : String) (v0 : Except String TokenInfo)
    (calls : List (Option String × Except String TokenInfo)) :
    (OIDCVerifier.Verify disc v0 NewOIDCVerifier).2.2 = true ∧
    (OIDCVerifier.Verify disc v0 NewOIDCVerifier).2.1 = ⟨true, disc⟩ ∧
    (OIDCVerifier.Verify (some e) v0 NewOIDCVerifier).1 = .error e ∧
    (∀ p ∈ (OIDCVerifier.runCalls calls ⟨true, some e⟩).1,
      p.1 = .error e ∧ p.2 = false) := by
  refine ⟨?_, ?_, rfl, ?_⟩
  · cases disc <;> rfl
  · cases disc <;> rfl
  · induction calls with
    | nil => intro p hp; simp [OIDCVerifier.runCalls] at hp
    | cons hd tl ih =>
      intro p hp
      obtain ⟨d, v⟩ := hd
      have hv : OIDCVerifier.Verify d v ⟨true, some e⟩ =
          (.error e, ⟨true, some e⟩, false) := rfl
      simp only [OIDCVerifier.runCalls, hv] at hp
      rcases List.mem_cons.mp hp with h | h
      · subst h; exact ⟨rfl, rfl⟩
      · exact ih p h

/-- Witness for C8: after a failed discovery latched as "boom", a later
call with a healthy discovery oracle still returns the stored error
without attempting discovery. -/
theorem OIDCVerifier_discovery_once_witness :
    ((Except.error "boom", false) ∈
      (OIDCVerifier.runCalls [(none, Except.ok tokenA)]
        (OIDCState.mk true (some "boom"))).1) ∧
    ((Except.error "boom" : Except String TokenInfo) = .error "boom" ∧
      (false : Bool) = false) :=
  ⟨by decide,
    (OIDCVerifier_discovery_once none "boom" (.ok tokenA) [(none, .ok tokenA)]).2.2.2
      (Except.error "boom", false) (by decide)⟩

/-- C2 counterexample: with no configured audience or required scopes, an
audience claim that is a JSON number makes `IntrospectionVerifier` fail
but `OIDCVerifier` succeed with an empty audience — the two strategies are
not behaviorally identical, and a non-string/non-array audience is *not*
an error in both. -/
theorem verifiers_audience_shape_counterexample :
    OIDCVerifier.postVerify emptyConfig ⟨"s", .num 7, "c", "", 0, 0, "i"⟩ =
      .ok ⟨"s", "c", [], [], 0, 0, "i"⟩ ∧
    IntrospectionVerifier.postVerify emptyConfig ⟨true, "", "c", 0, 0, "s", .num 7, "i"⟩ =
      .error "unexpected type for audience claim" :=
  ⟨rfl, rfl⟩

/-- C2 (amended): on an audience claim that is a string or an array, the
two strategies parse scopes and audience and apply the audience and
required-scopes post-checks identically, returning identical results; on
any other audience shape, `IntrospectionVerifier` fails while
`OIDCVerifier` proceeds as if the audience list were empty. -/
theorem verifiers_postVerify_equivalence (cfg : Config)
    (sub cid scope iss : String) (iat xp : Int) (aud : JsonVal) :
    (aud.isStrOrArr = true →
      OIDCVerifier.postVerify cfg ⟨sub, aud, cid, scope, iat, xp, iss⟩ =
        IntrospectionVerifier.postVerify cfg ⟨true, scope, cid, xp, iat, sub, aud, iss⟩) ∧
    (aud.isStrOrArr = false →
      IntrospectionVerifier.postVerify cfg ⟨true, scope, cid, xp, iat, sub, aud, iss⟩ =
        .error "unexpected type for audience claim" ∧
      OIDCVerifier.postVerify cfg ⟨sub, aud, cid, scope, iat, xp, iss⟩ =
        OIDCVerifier.postVerify cfg ⟨sub, .arr [], cid, scope, iat, xp, iss⟩) := by
  constructor
  · intro hs
    cases aud with
    | str s => rfl
    | arr es => rfl
    | num n => simp [JsonVal.isStrOrArr] at hs
    | boolean b => simp [JsonVal.isStrOrArr] at hs
    | null => simp [JsonVal.isStrOrArr] at hs
  · intro hs
    cases aud with
    | str s => simp [JsonVal.isStrOrArr] at hs
    | arr es => simp [JsonVal.isStrOrArr] at hs
    | num n => exact ⟨rfl, rfl⟩
    | boolean b => exact ⟨rfl, rfl⟩
    | null => exact ⟨rfl, rfl⟩

/-- Witness for C2's amended statement on a concrete string audience. -/
theorem verifiers_postVerify_equivalence_witness :
    (JsonVal.isStrOrArr (.str "https://rs") = true) ∧
    OIDCVerifier.postVerify emptyConfig ⟨"s", .str "https://rs", "c", "a b", 1, 2, "i"⟩ =
      IntrospectionVerifier.postVerify emptyConfig
        ⟨true, "a b", "c", 2, 1, "s", .str "https://rs", "i"⟩ :=
  ⟨rfl,
    (verifiers_postVerify_equivalence emptyConfig "s" "c" "a b" "i" 1 2
      (.str "https://rs")).1 rfl⟩

end Oauth
